import Mathlib

/-
Shallow embedding of `src/main.py` (github-wrapped): a CLI tool that pages
through a user's GitHub event feed and repository list, filters events to a
trailing time window, aggregates them into activity statistics, and renders a
terminal dashboard.

Machine conventions:
* JSON objects appearing in the feed are modelled as records whose fields are
  `Option`-valued (a `none` field is a missing key).
* Python exceptions (`KeyError` from `d[k]`, `ValueError` from
  `datetime.strptime`) are modelled as `Except` / explicit error outcomes.
* `sys.exit(1)` (the `error` helper) is modelled as a fatal outcome carrying
  the error kind; the process exit status of that path is the constant `1`.
* The unbounded `while True:` pagination loops are modelled with explicit
  fuel; `none` means the fuel ran out before the loop broke, so termination
  facts are statements that some finite fuel suffices.
* Timestamps are modelled by the canonical fixed-width form of the format
  string `%Y-%m-%dT%H:%M:%SZ` (the form the GitHub API emits), parsed into a
  `Nat` encoding that is order-isomorphic to Python `datetime` comparison.
-/

/-- Models `datetime` field validity: leap year test used by the day-of-month
range check of `datetime.strptime`. -/
def isLeap (y : Nat) : Bool :=
  (y % 4 == 0 && y % 100 != 0) || (y % 400 == 0)

/-- Number of days of month `mo` in year `y` (range check performed by the
`datetime` constructor inside `strptime`). -/
def daysInMonth (y mo : Nat) : Nat :=
  if mo = 2 then (if isLeap y then 29 else 28)
  else if mo = 4 ∨ mo = 6 ∨ mo = 9 ∨ mo = 11 then 30
  else 31

/-- Value of a decimal digit character, `none` if not a digit. -/
def digitVal (c : Char) : Option Nat :=
  if c.isDigit then some (c.toNat - 48) else none

/-- Value of a two-digit decimal field, `none` if either is not a digit. -/
def twoDigits (a b : Char) : Option Nat :=
  match digitVal a, digitVal b with
  | some x, some y => some (x * 10 + y)
  | _, _ => none

/-- Models `datetime.strptime(s, "%Y-%m-%dT%H:%M:%SZ")` on the canonical
fixed-width form of that format (4-digit year, 2-digit other fields, the
form the GitHub API emits). The result encodes the six datetime fields in
decimal positions `YYYYMMDDHHMMSS`, which is order-isomorphic to Python
`datetime` comparison. `none` models a raised `ValueError`. -/
def parseTimestamp (s : String) : Option Nat :=
  match s.data with
  | [y1, y2, y3, y4, c1, m1, m2, c2, d1, d2, c3, h1, h2, c4, n1, n2, c5, s1, s2, c6] =>
    if c1 = '-' ∧ c2 = '-' ∧ c3 = 'T' ∧ c4 = ':' ∧ c5 = ':' ∧ c6 = 'Z' then
      match twoDigits y1 y2, twoDigits y3 y4, twoDigits m1 m2, twoDigits d1 d2,
          twoDigits h1 h2, twoDigits n1 n2, twoDigits s1 s2 with
      | some yh, some yl, some mo, some dy, some hr, some mi, some se =>
        let y := yh * 100 + yl
        if 1 ≤ y ∧ 1 ≤ mo ∧ mo ≤ 12 ∧ 1 ≤ dy ∧ dy ≤ daysInMonth y mo ∧
            hr ≤ 23 ∧ mi ≤ 59 ∧ se ≤ 59 then
          some (((((y * 100 + mo) * 100 + dy) * 100 + hr) * 100 + mi) * 100 + se)
        else none
      | _, _, _, _, _, _, _ => none
    else none
  | _ => none

/-- The `pull_request` object nested in a PullRequestEvent payload; only its
`merged` key is read (`payload.get("pull_request", {}).get("merged")`). -/
structure RawPR where
  merged : Option Bool
  deriving DecidableEq

/-- The `payload` object of an event; all keys read from it in
`analyze_events` use `.get`, so each is `Option`-valued. -/
structure RawPayload where
  size : Option Int
  action : Option String
  pull_request : Option RawPR
  deriving DecidableEq

/-- The `repo` object of an event (`ev["repo"]["name"]`). -/
structure RawRepoRef where
  name : Option String
  deriving DecidableEq

/-- An event object as delivered by the events feed. The fields accessed by
direct subscript in the source (`type`, `repo`, `repo.name`, `created_at`,
`payload`) raise `KeyError` when missing, hence `Option`. -/
structure RawEvent where
  type : Option String
  repo : Option RawRepoRef
  created_at : Option String
  payload : Option RawPayload
  deriving DecidableEq

/-- A repository object as delivered by the repos feed; `analyze_languages`
reads only `language` (via `.get`, then direct subscript after a truthiness
guard). -/
structure RawRepo where
  language : Option String
  deriving DecidableEq

/-- The body `r.json()` of a page response, from the pagination loops' point
of view: either a JSON array of items, or any non-array value (whose Python
truthiness is recorded). -/
inductive PageBody (α : Type) : Type
  | arr (items : List α)
  | other (truthy : Bool)
  deriving DecidableEq

/-- One HTTP response as seen through `requests.get`: either a transport
failure (`requests.exceptions.RequestException`) or a status code with a
body. -/
inductive Response (α : Type) : Type
  | transportFail
  | status (code : Nat) (body : PageBody α)
  deriving DecidableEq

/-- Fatal error kinds going through the `error` helper in `github_request`. -/
inductive FatalKind : Type
  | network
  | notFound
  | auth
  | server
  deriving DecidableEq

/-- Models the `error` helper: prints a panel and calls `sys.exit(1)`; the
value is the process exit status. -/
def errorExitStatus (_msg : FatalKind) : Nat := 1

/-- Uncaught Python exception kinds relevant to this program. -/
inductive ExnKind : Type
  | keyError
  | valueError
  deriving DecidableEq

/-- Models `github_request`: a transport failure or a 404 / 401 / 403 / 5xx
status aborts the run via `error`; otherwise the JSON body is returned. -/
def github_request {α : Type} (resp : Response α) : Except FatalKind (PageBody α) :=
  match resp with
  | .transportFail => .error .network
  | .status code body =>
    if code = 404 then .error .notFound
    else if code = 401 ∨ code = 403 then .error .auth
    else if 500 ≤ code then .error .server
    else .ok body

/-- Outcome of a fetch phase: loop broke normally with a value, the run was
aborted by `error` (fatal), or an uncaught exception was raised. -/
inductive Outcome (β : Type) : Type
  | ok (v : β)
  | fatal (k : FatalKind)
  | exn (e : ExnKind)
  deriving DecidableEq

/-- The pagination loop of `fetch_events` (lines 61-77). `feed` maps a page
number to the response of requesting that page. Returns the accumulated
events together with the number of page requests issued; `none` means the
fuel ran out before the loop broke. -/
def fetch_events_loop (feed : Nat → Response RawEvent) (cutoff : Nat) :
    Nat → Nat → List RawEvent → Nat → Option (Outcome (List RawEvent) × Nat)
  | 0, _, _, _ => none
  | fuel + 1, page, acc, reqs =>
    match github_request (feed page) with
    | .error k => some (.fatal k, reqs + 1)
    | .ok (.other _) => some (.ok acc, reqs + 1)
    | .ok (.arr []) => some (.ok acc, reqs + 1)
    | .ok (.arr (e0 :: rest)) =>
      match ((e0 :: rest).getLast (List.cons_ne_nil e0 rest)).created_at with
      | none => some (.exn .keyError, reqs + 1)
      | some s =>
        match parseTimestamp s with
        | none => some (.exn .valueError, reqs + 1)
        | some t =>
          if t < cutoff ∨ (e0 :: rest).length < 100 then
            some (.ok (acc ++ (e0 :: rest)), reqs + 1)
          else
            fetch_events_loop feed cutoff fuel (page + 1) (acc ++ (e0 :: rest)) (reqs + 1)

/-- Parsed `created_at` timestamp of an event, when present and well-formed. -/
def eventTime (e : RawEvent) : Option Nat :=
  e.created_at.bind parseTimestamp

/-- Boolean form of the window-inclusion rule `created_at >= cutoff`. -/
def inWindow (cutoff : Nat) (e : RawEvent) : Bool :=
  match eventTime e with
  | some t => cutoff ≤ t
  | none => false

/-- The filtering comprehension of `fetch_events` (lines 79-82): keeps events
with `created_at >= cutoff`, raising on a missing or malformed timestamp. -/
def filter_events (evs : List RawEvent) (cutoff : Nat) : Except ExnKind (List RawEvent) :=
  match evs with
  | [] => .ok []
  | e :: rest =>
    match e.created_at with
    | none => .error .keyError
    | some s =>
      match parseTimestamp s with
      | none => .error .valueError
      | some t =>
        (filter_events rest cutoff).map (fun r => if cutoff ≤ t then e :: r else r)

/-- Models `fetch_events` as a whole: run the pagination loop, then filter
the accumulated superset down to the window. -/
def fetch_events (feed : Nat → Response RawEvent) (cutoff fuel : Nat) :
    Option (Outcome (List RawEvent) × Nat) :=
  match fetch_events_loop feed cutoff fuel 1 [] 0 with
  | none => none
  | some (.ok evs, n) =>
    match filter_events evs cutoff with
    | .ok res => some (.ok res, n)
    | .error e => some (.exn e, n)
  | some (r, n) => some (r, n)

/-- The pagination loop of `fetch_repos` (lines 89-100): accumulate pages
until a page is empty, not a list, or shorter than 100 items. -/
def fetch_repos_loop (feed : Nat → Response RawRepo) :
    Nat → Nat → List RawRepo → Nat → Option (Outcome (List RawRepo) × Nat)
  | 0, _, _, _ => none
  | fuel + 1, page, acc, reqs =>
    match github_request (feed page) with
    | .error k => some (.fatal k, reqs + 1)
    | .ok (.other _) => some (.ok acc, reqs + 1)
    | .ok (.arr []) => some (.ok acc, reqs + 1)
    | .ok (.arr (r0 :: rest)) =>
      if (r0 :: rest).length < 100 then some (.ok (acc ++ (r0 :: rest)), reqs + 1)
      else fetch_repos_loop feed fuel (page + 1) (acc ++ (r0 :: rest)) (reqs + 1)

/-- Insertion-ordered counter, modelling `collections.Counter` (a dict that
preserves insertion order; updating an existing key keeps its position, a new
key is appended with count 1). -/
def counterIncr (c : List (String × Nat)) (k : String) : List (String × Nat) :=
  match c with
  | [] => [(k, 1)]
  | (k', n) :: rest =>
    if k' = k then (k', n + 1) :: rest else (k', n) :: counterIncr rest k

/-- Count stored for key `k` (0 when absent), i.e. `Counter`'s mapping view. -/
def counterGet (c : List (String × Nat)) (k : String) : Nat :=
  match c with
  | [] => 0
  | (k', n) :: rest => if k' = k then n else counterGet rest k

/-- Models `Counter.most_common(1)[0]` on a nonempty counter (`none` on an
empty one): `most_common` sorts by count descending with a stable sort, so
among tied maximal counts the earliest-inserted key wins. -/
def most_common1 (c : List (String × Nat)) : Option (String × Nat) :=
  c.foldl
    (fun best kv =>
      match best with
      | none => some kv
      | some (bk, bn) => if bn < kv.2 then some kv else some (bk, bn))
    none

/-- Truthiness of `payload.get("pull_request", {}).get("merged")`: a missing
`pull_request` yields `{}`, whose `merged` is `None` (falsy); otherwise the
`merged` value must be the JSON boolean `true`. -/
def mergedTruthy (payload : RawPayload) : Bool :=
  match payload.pull_request with
  | some pr => pr.merged = some true
  | none => false

/-- The `stats` dictionary built by `analyze_events`. -/
structure Stats where
  total_events : Nat
  commits : Int
  prs_opened : Nat
  prs_merged : Nat
  issues : Nat
  repo_counter : List (String × Nat)
  day_counter : List (String × Nat)
  deriving DecidableEq

/-- One iteration of the `for ev in events` loop of `analyze_events`
(lines 114-131). Direct subscripts (`ev["type"]`, `ev["repo"]["name"]`,
`ev["created_at"]`, `ev["payload"]`) raise `KeyError` when the key is
missing; `.get` accesses never raise. -/
def analyzeStep (s : Stats) (ev : RawEvent) : Except ExnKind Stats :=
  match ev.type with
  | none => .error .keyError
  | some typ =>
    match ev.repo with
    | none => .error .keyError
    | some repoRef =>
      match repoRef.name with
      | none => .error .keyError
      | some repoName =>
        match ev.created_at with
        | none => .error .keyError
        | some created =>
          let s := { s with
            repo_counter := counterIncr s.repo_counter repoName,
            day_counter := counterIncr s.day_counter (created.take 10) }
          if typ = "PushEvent" then
            match ev.payload with
            | none => .error .keyError
            | some payload => .ok { s with commits := s.commits + payload.size.getD 0 }
          else if typ = "PullRequestEvent" then
            match ev.payload with
            | none => .error .keyError
            | some payload =>
              if payload.action = some "opened" then
                .ok { s with prs_opened := s.prs_opened + 1 }
              else if payload.action = some "closed" ∧ mergedTruthy payload then
                .ok { s with prs_merged := s.prs_merged + 1 }
              else .ok s
          else if typ = "IssuesEvent" then
            match ev.payload with
            | none => .error .keyError
            | some payload =>
              if payload.action = some "opened" then
                .ok { s with issues := s.issues + 1 }
              else .ok s
          else .ok s

/-- The `for ev in events` loop of `analyze_events`: process events left to
right, propagating the first raised exception. -/
def analyzeLoop (s : Stats) : List RawEvent → Except ExnKind Stats
  | [] => .ok s
  | e :: rest =>
    match analyzeStep s e with
    | .ok s' => analyzeLoop s' rest
    | .error k => .error k

/-- Models `analyze_events` (lines 103-133): `total_events` is set to
`len(events)` up front, then the single pass folds every event. -/
def analyze_events (evs : List RawEvent) : Except ExnKind Stats :=
  analyzeLoop
    { total_events := evs.length, commits := 0, prs_opened := 0, prs_merged := 0,
      issues := 0, repo_counter := [], day_counter := [] }
    evs

/-- One step of the `Counter(...)` generator of `analyze_languages`: a
repository contributes iff its `language` is present and truthy (a non-empty
string). -/
def langStep (c : List (String × Nat)) (r : RawRepo) : List (String × Nat) :=
  match r.language with
  | some s => if s ≠ "" then counterIncr c s else c
  | none => c

/-- Models `analyze_languages` (lines 135-136):
`Counter(r["language"] for r in repos if r.get("language"))`. -/
def analyze_languages (repos : List RawRepo) : List (String × Nat) :=
  repos.foldl langStep []

/-- The distinct output blocks `render_dashboard` can print, in print order. -/
inductive RenderItem : Type
  | rule
  | header
  | emptyHistory
  | summaryPanel
  | repoTable
  | langTable
  | caveat90
  deriving DecidableEq

/-- Models the control flow of `render_dashboard` (lines 138-185) as the list
of blocks printed: rule and header always; on zero total events the
empty-history panel and an early return; otherwise the summary panel, the
repo table when the repo counter is nonempty, the language table when the
language counter is nonempty, and the 90-day caveat when `days > 90`. -/
def render_dashboard (days : Nat) (s : Stats) (langStats : List (String × Nat)) :
    List RenderItem :=
  [.rule, .header] ++
  (if s.total_events = 0 then [.emptyHistory]
   else
     [.summaryPanel] ++
     (if s.repo_counter ≠ [] then [.repoTable] else []) ++
     (if langStats ≠ [] then [.langTable] else []) ++
     (if 90 < days then [.caveat90] else []))

/-
Concrete inputs used by the synthetic-feed fact, the counterexamples and the
witnesses below.
-/

/-- A push event with 2 commits on 2024-01-01 in repo alice/app. -/
def evWitPush : RawEvent :=
  ⟨some "PushEvent", some ⟨some "alice/app"⟩, some "2024-01-01T10:00:00Z",
    some ⟨some 2, none, none⟩⟩

/-- A pull-request opened event on 2024-01-02. -/
def evWitPrOpened : RawEvent :=
  ⟨some "PullRequestEvent", some ⟨some "alice/app"⟩, some "2024-01-02T10:00:00Z",
    some ⟨none, some "opened", none⟩⟩

/-- A pull-request closed event with `merged = true` on 2024-01-03. -/
def evWitPrMerged : RawEvent :=
  ⟨some "PullRequestEvent", some ⟨some "alice/lib"⟩, some "2024-01-03T11:00:00Z",
    some ⟨none, some "closed", some ⟨some true⟩⟩⟩

/-- A pull-request closed event with `merged = false` on 2024-01-03. -/
def evWitPrUnmerged : RawEvent :=
  ⟨some "PullRequestEvent", some ⟨some "alice/lib"⟩, some "2024-01-03T12:00:00Z",
    some ⟨none, some "closed", some ⟨some false⟩⟩⟩

/-- An issues opened event on 2024-01-03. -/
def evWitIssue : RawEvent :=
  ⟨some "IssuesEvent", some ⟨some "alice/app"⟩, some "2024-01-03T10:00:00Z",
    some ⟨none, some "opened", none⟩⟩

/-- An unknown-kind event dated 2024-01-01 (payload absent). -/
def evDayA : RawEvent :=
  ⟨some "WatchEvent", some ⟨some "alice/app"⟩, some "2024-01-01T10:00:00Z", none⟩

/-- An unknown-kind event dated 2024-01-02 (payload absent). -/
def evDayB : RawEvent :=
  ⟨some "WatchEvent", some ⟨some "alice/app"⟩, some "2024-01-02T10:00:00Z", none⟩

/-- An event missing the structural `type` key. -/
def evNoType : RawEvent :=
  ⟨none, some ⟨some "alice/app"⟩, some "2024-01-01T10:00:00Z", none⟩

/-- An event missing the `created_at` key. -/
def evNoDate : RawEvent :=
  ⟨some "WatchEvent", some ⟨some "alice/app"⟩, none, none⟩

/-- An event whose `created_at` does not match the timestamp format. -/
def evBadDate : RawEvent :=
  ⟨some "WatchEvent", some ⟨some "alice/app"⟩, some "not-a-date", none⟩

/-- An event inside the synthetic window (2025-01-05, cutoff 2025-01-01). -/
def evInSynth : RawEvent :=
  ⟨some "WatchEvent", some ⟨some "alice/app"⟩, some "2025-01-05T12:00:00Z", none⟩

/-- An event before the synthetic cutoff (2024-12-25). -/
def evOldSynth : RawEvent :=
  ⟨some "WatchEvent", some ⟨some "alice/app"⟩, some "2024-12-25T00:00:00Z", none⟩

/-- The synthetic cutoff 2025-01-01T00:00:00Z in the timestamp encoding. -/
def cutoffSynth : Nat := 20250101000000

/-- The synthetic feed with pages sized [100, 100, 100, 40]: pages 1 and 2
entirely in-window, page 3 with 99 in-window events and an older last event
(the cutoff falls inside page 3), page 4 entirely older. -/
def feedSynth : Nat → Response RawEvent := fun page =>
  if page = 1 then .status 200 (.arr (List.replicate 100 evInSynth))
  else if page = 2 then .status 200 (.arr (List.replicate 100 evInSynth))
  else if page = 3 then .status 200 (.arr (List.replicate 99 evInSynth ++ [evOldSynth]))
  else .status 200 (.arr (List.replicate 40 evOldSynth))

/-- A repos feed with one full page followed by a short page. -/
def feedReposWit : Nat → Response RawRepo := fun page =>
  if page = 1 then .status 200 (.arr (List.replicate 100 ⟨some "Python"⟩))
  else .status 200 (.arr (List.replicate 40 ⟨some "Python"⟩))

/-
Characterization predicates used in the theorem statements below. Each one
restates, in closed form, which events trigger a given counter of
`analyze_events` or a given control path.
-/

/-- The repository name `ev["repo"]["name"]` read by the aggregator. -/
def repoNameOf (e : RawEvent) : Option String :=
  e.repo.bind RawRepoRef.name

/-- The day key `ev["created_at"][:10]` used for the day histogram. -/
def dayOf (e : RawEvent) : Option String :=
  e.created_at.map (fun s => s.take 10)

/-- Events that increment `prs_opened`: pull-request kind with action
`opened`. -/
def prOpenedEv (e : RawEvent) : Bool :=
  decide (e.type = some "PullRequestEvent") &&
    (match e.payload with
     | some p => decide (p.action = some "opened")
     | none => false)

/-- Events that increment `prs_merged`: pull-request kind, action `closed`,
with a truthy nested `merged` flag. -/
def prMergedEv (e : RawEvent) : Bool :=
  decide (e.type = some "PullRequestEvent") &&
    (match e.payload with
     | some p => decide (p.action = some "closed") && mergedTruthy p
     | none => false)

/-- Closed-but-unmerged pull-request events (increment neither counter). -/
def prClosedUnmergedEv (e : RawEvent) : Bool :=
  decide (e.type = some "PullRequestEvent") &&
    (match e.payload with
     | some p => decide (p.action = some "closed") && !mergedTruthy p
     | none => false)

/-- Events that increment `issues`: issues kind with action `opened`. -/
def issueOpenedEv (e : RawEvent) : Bool :=
  decide (e.type = some "IssuesEvent") &&
    (match e.payload with
     | some p => decide (p.action = some "opened")
     | none => false)

/-- Contribution of an event to `commits`: the push payload's `size`
(`.get("size", 0)`), zero for non-push events. -/
def pushSize (e : RawEvent) : Int :=
  if e.type = some "PushEvent" then
    match e.payload with
    | some p => p.size.getD 0
    | none => 0
  else 0

/-- The structural fields `ev["type"]`, `ev["repo"]["name"]`,
`ev["created_at"]` accessed by direct subscript on every event. -/
def structuralOK (e : RawEvent) : Prop :=
  e.type ≠ none ∧ (∃ r, e.repo = some r ∧ r.name ≠ none) ∧ e.created_at ≠ none

/-- Event kinds whose branch subscripts `ev["payload"]` directly. -/
def knownType (e : RawEvent) : Prop :=
  e.type = some "PushEvent" ∨ e.type = some "PullRequestEvent" ∨
    e.type = some "IssuesEvent"

/-- Exactly the events `analyzeStep` processes without raising: structural
fields present, and `payload` present when the kind's branch subscripts it. -/
def stepTotal (e : RawEvent) : Prop :=
  structuralOK e ∧ (knownType e → e.payload ≠ none)

/-- Responses that `github_request` turns into a fatal abort. -/
def isFatalResp {α : Type} : Response α → Prop
  | .transportFail => True
  | .status code _ => code = 404 ∨ code = 401 ∨ code = 403 ∨ 500 ≤ code

/-- Page bodies that end pagination in `fetch_repos`: non-lists and lists of
fewer than 100 items (empty included). -/
def pageShort {α : Type} : PageBody α → Prop
  | .arr items => items.length < 100
  | .other _ => True

/-
Lemmas about the insertion-ordered counter.
-/

lemma counterGet_incr (c : List (String × Nat)) (k k' : String) :
    counterGet (counterIncr c k) k' =
      counterGet c k' + (if k = k' then 1 else 0) := by
  induction c with
  | nil =>
    by_cases h : k = k'
    · simp [counterIncr, counterGet, h]
    · simp [counterIncr, counterGet, h]
  | cons kv rest ih =>
    obtain ⟨a, n⟩ := kv
    by_cases hak : a = k
    · subst hak
      by_cases hk' : a = k'
      · subst hk'
        simp [counterIncr, counterGet]
      · simp [counterIncr, counterGet, hk']
    · by_cases hk' : a = k'
      · subst hk'
        have hk : ¬(k = a) := fun h => hak h.symm
        simp [counterIncr, counterGet, hak, hk]
      · simp [counterIncr, counterGet, hak, hk', ih]

lemma counterIncr_pos (c : List (String × Nat)) (k : String)
    (h : ∀ kv ∈ c, 0 < kv.2) : ∀ kv ∈ counterIncr c k, 0 < kv.2 := by
  induction c with
  | nil =>
    intro kv hkv
    simp only [counterIncr, List.mem_singleton] at hkv
    simp [hkv]
  | cons kv0 rest ih =>
    obtain ⟨a, n⟩ := kv0
    intro kv hkv
    simp only [counterIncr] at hkv
    split_ifs at hkv with hak
    · rcases List.mem_cons.mp hkv with h1 | h1
      · simp [h1]
      · exact h kv (List.mem_cons_of_mem _ h1)
    · rcases List.mem_cons.mp hkv with h1 | h1
      · exact h kv (h1 ▸ List.mem_cons_self _ _)
      · exact ih (fun x hx => h x (List.mem_cons_of_mem _ hx)) kv h1

/-- The statistics produced by one successful aggregation step, in closed
form: the histograms gain the event's repo and day keys, and each typed
counter gains the event's contribution. -/
def stepSpec (s : Stats) (e : RawEvent) (rn d : String) : Stats :=
  { total_events := s.total_events,
    commits := s.commits + pushSize e,
    prs_opened := s.prs_opened + (if prOpenedEv e then 1 else 0),
    prs_merged := s.prs_merged + (if prMergedEv e then 1 else 0),
    issues := s.issues + (if issueOpenedEv e then 1 else 0),
    repo_counter := counterIncr s.repo_counter rn,
    day_counter := counterIncr s.day_counter d }

lemma analyzeStep_spec (s : Stats) (e : RawEvent) :
    (analyzeStep s e = .error .keyError ∧ ¬ stepTotal e) ∨
    (stepTotal e ∧ ∃ rn d, repoNameOf e = some rn ∧ dayOf e = some d ∧
      analyzeStep s e = .ok (stepSpec s e rn d)) := by
  obtain ⟨ty, rp, ca, pl⟩ := e
  cases ty with
  | none => exact Or.inl ⟨rfl, fun h => h.1.1 rfl⟩
  | some typ =>
  cases rp with
  | none =>
    refine Or.inl ⟨rfl, fun h => ?_⟩
    obtain ⟨r, hr, _⟩ := h.1.2.1
    exact Option.noConfusion hr
  | some rref =>
  obtain ⟨nm⟩ := rref
  cases nm with
  | none =>
    refine Or.inl ⟨rfl, fun h => ?_⟩
    obtain ⟨r, hr, hname⟩ := h.1.2.1
    injection hr with hr'
    rw [← hr'] at hname
    exact hname rfl
  | some rn =>
  cases ca with
  | none => exact Or.inl ⟨rfl, fun h => h.1.2.2 rfl⟩
  | some created =>
  have hstruct : structuralOK ⟨some typ, some ⟨some rn⟩, some created, pl⟩ :=
    ⟨Option.some_ne_none _, ⟨⟨some rn⟩, rfl, Option.some_ne_none _⟩, Option.some_ne_none _⟩
  by_cases hPush : typ = "PushEvent"
  · subst hPush
    cases pl with
    | none => exact Or.inl ⟨rfl, fun h => h.2 (Or.inl rfl) rfl⟩
    | some payload =>
      refine Or.inr ⟨⟨hstruct, fun _ => Option.some_ne_none _⟩,
        rn, created.take 10, rfl, rfl, ?_⟩
      rfl
  · by_cases hPR : typ = "PullRequestEvent"
    · subst hPR
      cases pl with
      | none => exact Or.inl ⟨rfl, fun h => h.2 (Or.inr (Or.inl rfl)) rfl⟩
      | some payload =>
        refine Or.inr ⟨⟨hstruct, fun _ => Option.some_ne_none _⟩,
          rn, created.take 10, rfl, rfl, ?_⟩
        by_cases hOp : payload.action = some "opened"
        · simp [analyzeStep, stepSpec, pushSize, prOpenedEv, prMergedEv,
            issueOpenedEv, hOp]
        · by_cases hCl : payload.action = some "closed"
          · by_cases hM : mergedTruthy payload = true
            · simp [analyzeStep, stepSpec, pushSize, prOpenedEv, prMergedEv,
                issueOpenedEv, hOp, hCl, hM]
            · simp [analyzeStep, stepSpec, pushSize, prOpenedEv, prMergedEv,
                issueOpenedEv, hOp, hCl, hM]
          · simp [analyzeStep, stepSpec, pushSize, prOpenedEv, prMergedEv,
              issueOpenedEv, hOp, hCl]
    · by_cases hIss : typ = "IssuesEvent"
      · subst hIss
        cases pl with
        | none =>
          exact Or.inl ⟨rfl, fun h => h.2 (Or.inr (Or.inr rfl)) rfl⟩
        | some payload =>
          refine Or.inr ⟨⟨hstruct, fun _ => Option.some_ne_none _⟩,
            rn, created.take 10, rfl, rfl, ?_⟩
          by_cases hOp : payload.action = some "opened"
          · simp [analyzeStep, stepSpec, pushSize, prOpenedEv, prMergedEv,
              issueOpenedEv, hOp]
          · simp [analyzeStep, stepSpec, pushSize, prOpenedEv, prMergedEv,
              issueOpenedEv, hOp]
      · have hnk : ¬ knownType ⟨some typ, some ⟨some rn⟩, some created, pl⟩ := by
          simp [knownType, hPush, hPR, hIss]
        refine Or.inr ⟨⟨hstruct, fun hk => absurd hk hnk⟩,
          rn, created.take 10, rfl, rfl, ?_⟩
        simp [analyzeStep, stepSpec, pushSize, prOpenedEv, prMergedEv,
          issueOpenedEv, hPush, hPR, hIss]

/-- Whether an event's repo key equals `k` (contribution to the repo
histogram at key `k`). -/
def repoKeyEv (k : String) (e : RawEvent) : Bool :=
  decide (repoNameOf e = some k)

/-- Whether an event's day key equals `k` (contribution to the day histogram
at key `k`). -/
def dayKeyEv (k : String) (e : RawEvent) : Bool :=
  decide (dayOf e = some k)

lemma analyzeLoop_err : ∀ (evs : List RawEvent) (s : Stats) (k : ExnKind),
    analyzeLoop s evs = .error k → k = .keyError := by
  intro evs
  induction evs with
  | nil => intro s k h; simp [analyzeLoop] at h
  | cons e rest ih =>
    intro s k h
    simp only [analyzeLoop] at h
    rcases analyzeStep_spec s e with ⟨herr, _⟩ | ⟨_, rn, d, _, _, hok⟩
    · rw [herr] at h
      simp at h
      exact h.symm
    · rw [hok] at h
      exact ih _ _ h

lemma analyzeLoop_ok_total : ∀ (evs : List RawEvent) (s : Stats),
    (∀ e ∈ evs, stepTotal e) → ∃ s', analyzeLoop s evs = .ok s' := by
  intro evs
  induction evs with
  | nil => exact fun s _ => ⟨s, rfl⟩
  | cons e rest ih =>
    intro s h
    rcases analyzeStep_spec s e with ⟨_, hnot⟩ | ⟨_, rn, d, _, _, hok⟩
    · exact absurd (h e (List.mem_cons_self _ _)) hnot
    · obtain ⟨s', hs'⟩ := ih (stepSpec s e rn d)
        (fun x hx => h x (List.mem_cons_of_mem _ hx))
      refine ⟨s', ?_⟩
      simp only [analyzeLoop]
      rw [hok]
      exact hs'

lemma analyzeLoop_ok_then : ∀ (evs : List RawEvent) (s s' : Stats),
    analyzeLoop s evs = .ok s' → ∀ e ∈ evs, stepTotal e := by
  intro evs
  induction evs with
  | nil => intro s s' _ e he; exact absurd he (List.not_mem_nil e)
  | cons e0 rest ih =>
    intro s s' h e he
    simp only [analyzeLoop] at h
    rcases analyzeStep_spec s e0 with ⟨herr, _⟩ | ⟨htot, rn, d, _, _, hok⟩
    · rw [herr] at h
      simp at h
    · rw [hok] at h
      rcases List.mem_cons.mp he with he0 | hrest
      · exact he0 ▸ htot
      · exact ih _ _ h e hrest

lemma analyzeLoop_fields : ∀ (evs : List RawEvent) (s s' : Stats),
    analyzeLoop s evs = .ok s' →
    s'.total_events = s.total_events ∧
    s'.commits = s.commits + (evs.map pushSize).sum ∧
    s'.prs_opened = s.prs_opened + evs.countP prOpenedEv ∧
    s'.prs_merged = s.prs_merged + evs.countP prMergedEv ∧
    s'.issues = s.issues + evs.countP issueOpenedEv ∧
    (∀ k, counterGet s'.repo_counter k =
      counterGet s.repo_counter k + evs.countP (repoKeyEv k)) ∧
    (∀ k, counterGet s'.day_counter k =
      counterGet s.day_counter k + evs.countP (dayKeyEv k)) := by
  intro evs
  induction evs with
  | nil =>
    intro s s' h
    simp only [analyzeLoop] at h
    injection h with h
    subst h
    simp
  | cons e rest ih =>
    intro s s' h
    simp only [analyzeLoop] at h
    rcases analyzeStep_spec s e with ⟨herr, _⟩ | ⟨_, rn, d, hrn, hd, hok⟩
    · rw [herr] at h
      simp at h
    · rw [hok] at h
      obtain ⟨h1, h2, h3, h4, h5, h6, h7⟩ := ih _ _ h
      refine ⟨?_, ?_, ?_, ?_, ?_, ?_, ?_⟩
      · rw [h1]; rfl
      · rw [h2]
        simp only [stepSpec, List.map_cons, List.sum_cons]
        ring
      · rw [h3]
        simp only [stepSpec, List.countP_cons]
        omega
      · rw [h4]
        simp only [stepSpec, List.countP_cons]
        omega
      · rw [h5]
        simp only [stepSpec, List.countP_cons]
        omega
      · intro k
        rw [h6 k]
        simp only [stepSpec, counterGet_incr, List.countP_cons]
        have : repoKeyEv k e = decide (rn = k) := by
          simp [repoKeyEv, hrn]
        rw [this]
        by_cases hkk : rn = k <;> (simp [hkk]; try omega)
      · intro k
        rw [h7 k]
        simp only [stepSpec, counterGet_incr, List.countP_cons]
        have : dayKeyEv k e = decide (d = k) := by
          simp [dayKeyEv, hd]
        rw [this]
        by_cases hkk : d = k <;> (simp [hkk]; try omega)

lemma analyzeLoop_pos : ∀ (evs : List RawEvent) (s s' : Stats),
    (∀ kv ∈ s.repo_counter, 0 < kv.2) → (∀ kv ∈ s.day_counter, 0 < kv.2) →
    analyzeLoop s evs = .ok s' →
    (∀ kv ∈ s'.repo_counter, 0 < kv.2) ∧ (∀ kv ∈ s'.day_counter, 0 < kv.2) := by
  intro evs
  induction evs with
  | nil =>
    intro s s' hr hd h
    simp only [analyzeLoop] at h
    injection h with h
    subst h
    exact ⟨hr, hd⟩
  | cons e rest ih =>
    intro s s' hr hd h
    simp only [analyzeLoop] at h
    rcases analyzeStep_spec s e with ⟨herr, _⟩ | ⟨_, rn, d, _, _, hok⟩
    · rw [herr] at h
      simp at h
    · rw [hok] at h
      exact ih _ _ (counterIncr_pos _ _ hr) (counterIncr_pos _ _ hd) h

lemma filter_events_ok : ∀ (evs : List RawEvent) (cutoff : Nat),
    (∀ e ∈ evs, (eventTime e).isSome) →
    filter_events evs cutoff = .ok (evs.filter (inWindow cutoff)) := by
  intro evs cutoff
  induction evs with
  | nil => intro _; rfl
  | cons e rest ih =>
    intro h
    have he : (eventTime e).isSome := h e (List.mem_cons_self _ _)
    cases hca : e.created_at with
    | none => rw [eventTime, hca] at he; simp at he
    | some str =>
      cases hts : parseTimestamp str with
      | none => rw [eventTime, hca] at he; simp [hts] at he
      | some t =>
        simp only [filter_events, hca, hts]
        rw [ih (fun x hx => h x (List.mem_cons_of_mem _ hx))]
        rw [List.filter_cons]
        have hw : inWindow cutoff e = decide (cutoff ≤ t) := by
          simp [inWindow, eventTime, hca, hts]
        rw [hw]
        by_cases hc : cutoff ≤ t <;> simp [hc, Except.map]

lemma fetch_events_loop_fatal (feed : Nat → Response RawEvent)
    (cutoff fuel page reqs : Nat) (acc : List RawEvent) (k : FatalKind)
    (hg : github_request (feed page) = .error k) :
    fetch_events_loop feed cutoff (fuel + 1) page acc reqs =
      some (.fatal k, reqs + 1) := by
  simp only [fetch_events_loop]
  rw [hg]

lemma fetch_events_loop_endOther (feed : Nat → Response RawEvent)
    (cutoff fuel page reqs : Nat) (acc : List RawEvent) (b : Bool)
    (hg : github_request (feed page) = .ok (.other b)) :
    fetch_events_loop feed cutoff (fuel + 1) page acc reqs =
      some (.ok acc, reqs + 1) := by
  simp only [fetch_events_loop]
  rw [hg]

lemma fetch_events_loop_endNil (feed : Nat → Response RawEvent)
    (cutoff fuel page reqs : Nat) (acc : List RawEvent)
    (hg : github_request (feed page) = .ok (.arr [])) :
    fetch_events_loop feed cutoff (fuel + 1) page acc reqs =
      some (.ok acc, reqs + 1) := by
  simp only [fetch_events_loop]
  rw [hg]

lemma fetch_events_loop_step (feed : Nat → Response RawEvent)
    (cutoff fuel page reqs : Nat) (acc items : List RawEvent)
    (le : RawEvent) (str : String) (t : Nat)
    (hg : github_request (feed page) = .ok (.arr items)) (hne : items ≠ [])
    (hlast : items.getLast? = some le) (hca : le.created_at = some str)
    (hts : parseTimestamp str = some t) :
    fetch_events_loop feed cutoff (fuel + 1) page acc reqs =
      (if t < cutoff ∨ items.length < 100 then some (.ok (acc ++ items), reqs + 1)
       else fetch_events_loop feed cutoff fuel (page + 1) (acc ++ items) (reqs + 1)) := by
  cases items with
  | nil => exact absurd rfl hne
  | cons e0 rest =>
    have hle : (e0 :: rest).getLast (List.cons_ne_nil e0 rest) = le := by
      rw [List.getLast?_eq_getLast (e0 :: rest) (List.cons_ne_nil e0 rest)] at hlast
      injection hlast
    simp only [fetch_events_loop, hg, hle, hca, hts]

lemma fetch_events_loop_keyError (feed : Nat → Response RawEvent)
    (cutoff fuel page reqs : Nat) (acc items : List RawEvent) (le : RawEvent)
    (hg : github_request (feed page) = .ok (.arr items)) (hne : items ≠ [])
    (hlast : items.getLast? = some le) (hca : le.created_at = none) :
    fetch_events_loop feed cutoff (fuel + 1) page acc reqs =
      some (.exn .keyError, reqs + 1) := by
  cases items with
  | nil => exact absurd rfl hne
  | cons e0 rest =>
    have hle : (e0 :: rest).getLast (List.cons_ne_nil e0 rest) = le := by
      rw [List.getLast?_eq_getLast (e0 :: rest) (List.cons_ne_nil e0 rest)] at hlast
      injection hlast
    simp only [fetch_events_loop, hg, hle, hca]

lemma fetch_events_loop_valueError (feed : Nat → Response RawEvent)
    (cutoff fuel page reqs : Nat) (acc items : List RawEvent) (le : RawEvent)
    (str : String)
    (hg : github_request (feed page) = .ok (.arr items)) (hne : items ≠ [])
    (hlast : items.getLast? = some le) (hca : le.created_at = some str)
    (hts : parseTimestamp str = none) :
    fetch_events_loop feed cutoff (fuel + 1) page acc reqs =
      some (.exn .valueError, reqs + 1) := by
  cases items with
  | nil => exact absurd rfl hne
  | cons e0 rest =>
    have hle : (e0 :: rest).getLast (List.cons_ne_nil e0 rest) = le := by
      rw [List.getLast?_eq_getLast (e0 :: rest) (List.cons_ne_nil e0 rest)] at hlast
      injection hlast
    simp only [fetch_events_loop, hg, hle, hca, hts]

lemma fetch_repos_loop_fatal (feed : Nat → Response RawRepo)
    (fuel page reqs : Nat) (acc : List RawRepo) (k : FatalKind)
    (hg : github_request (feed page) = .error k) :
    fetch_repos_loop feed (fuel + 1) page acc reqs = some (.fatal k, reqs + 1) := by
  simp only [fetch_repos_loop]
  rw [hg]

lemma fetch_repos_loop_endOther (feed : Nat → Response RawRepo)
    (fuel page reqs : Nat) (acc : List RawRepo) (b : Bool)
    (hg : github_request (feed page) = .ok (.other b)) :
    fetch_repos_loop feed (fuel + 1) page acc reqs = some (.ok acc, reqs + 1) := by
  simp only [fetch_repos_loop]
  rw [hg]

lemma fetch_repos_loop_endNil (feed : Nat → Response RawRepo)
    (fuel page reqs : Nat) (acc : List RawRepo)
    (hg : github_request (feed page) = .ok (.arr [])) :
    fetch_repos_loop feed (fuel + 1) page acc reqs = some (.ok acc, reqs + 1) := by
  simp only [fetch_repos_loop]
  rw [hg]

lemma fetch_repos_loop_step (feed : Nat → Response RawRepo)
    (fuel page reqs : Nat) (acc : List RawRepo) (r0 : RawRepo) (rest : List RawRepo)
    (hg : github_request (feed page) = .ok (.arr (r0 :: rest))) :
    fetch_repos_loop feed (fuel + 1) page acc reqs =
      (if (r0 :: rest).length < 100 then some (.ok (acc ++ (r0 :: rest)), reqs + 1)
       else fetch_repos_loop feed fuel (page + 1) (acc ++ (r0 :: rest)) (reqs + 1)) := by
  simp only [fetch_repos_loop, hg]

lemma fetch_repos_loop_mono : ∀ (fuel : Nat) (feed : Nat → Response RawRepo)
    (page : Nat) (acc : List RawRepo) (reqs : Nat)
    (r : Outcome (List RawRepo) × Nat),
    fetch_repos_loop feed fuel page acc reqs = some r →
    ∀ fuel', fuel ≤ fuel' → fetch_repos_loop feed fuel' page acc reqs = some r := by
  intro fuel
  induction fuel with
  | zero =>
    intro feed page acc reqs r h
    simp [fetch_repos_loop] at h
  | succ f ih =>
    intro feed page acc reqs r h fuel' hf
    obtain ⟨f', rfl⟩ : ∃ f', fuel' = f' + 1 := ⟨fuel' - 1, by omega⟩
    have hff : f ≤ f' := by omega
    cases hg : github_request (feed page) with
    | error k =>
      rw [fetch_repos_loop_fatal feed f page reqs acc k hg] at h
      rw [fetch_repos_loop_fatal feed f' page reqs acc k hg]
      exact h
    | ok body =>
      cases body with
      | other b =>
        rw [fetch_repos_loop_endOther feed f page reqs acc b hg] at h
        rw [fetch_repos_loop_endOther feed f' page reqs acc b hg]
        exact h
      | arr items =>
        cases items with
        | nil =>
          rw [fetch_repos_loop_endNil feed f page reqs acc hg] at h
          rw [fetch_repos_loop_endNil feed f' page reqs acc hg]
          exact h
        | cons r0 rest =>
          rw [fetch_repos_loop_step feed f page reqs acc r0 rest hg] at h
          rw [fetch_repos_loop_step feed f' page reqs acc r0 rest hg]
          by_cases hlen : (r0 :: rest).length < 100
          · rw [if_pos hlen] at h ⊢
            exact h
          · rw [if_neg hlen] at h ⊢
            exact ih _ _ _ _ _ h _ hff

lemma fetch_repos_loop_run : ∀ (n : Nat) (feed : Nat → Response RawRepo)
    (p : Nat) (acc : List RawRepo) (reqs : Nat),
    (∀ i, i < n → ∃ items, github_request (feed (p + i)) = .ok (.arr items) ∧
      100 ≤ items.length) →
    (∃ body, github_request (feed (p + n)) = .ok body ∧ pageShort body) →
    ∃ acc', fetch_repos_loop feed (n + 1) p acc reqs =
      some (.ok acc', reqs + (n + 1)) := by
  intro n
  induction n with
  | zero =>
    intro feed p acc reqs _ hend
    obtain ⟨body, hg, hshort⟩ := hend
    rw [Nat.add_zero] at hg
    cases body with
    | other b =>
      rw [fetch_repos_loop_endOther feed 0 p reqs acc b hg]
      exact ⟨acc, rfl⟩
    | arr items =>
      cases items with
      | nil =>
        rw [fetch_repos_loop_endNil feed 0 p reqs acc hg]
        exact ⟨acc, rfl⟩
      | cons r0 rest =>
        have hlen : (r0 :: rest).length < 100 := hshort
        rw [fetch_repos_loop_step feed 0 p reqs acc r0 rest hg, if_pos hlen]
        exact ⟨acc ++ (r0 :: rest), rfl⟩
  | succ m ih =>
    intro feed p acc reqs hfull hend
    obtain ⟨items, hg, hlen⟩ := hfull 0 (Nat.succ_pos m)
    rw [Nat.add_zero] at hg
    cases items with
    | nil => simp at hlen
    | cons r0 rest =>
      have hnotlt : ¬ (r0 :: rest).length < 100 := by omega
      rw [fetch_repos_loop_step feed (m + 1) p reqs acc r0 rest hg, if_neg hnotlt]
      obtain ⟨acc', hacc'⟩ := ih feed (p + 1) (acc ++ (r0 :: rest)) (reqs + 1)
        (fun i hi => by
          have hx := hfull (i + 1) (by omega)
          rwa [show p + (i + 1) = p + 1 + i by omega] at hx)
        (by
          have hx := hend
          rwa [show p + (m + 1) = p + 1 + m by omega] at hx)
      refine ⟨acc', ?_⟩
      rw [hacc']
      have harith : reqs + 1 + (m + 1) = reqs + (m + 1 + 1) := by omega
      rw [harith]

lemma langStep_pos (c : List (String × Nat)) (r : RawRepo)
    (hc : ∀ kv ∈ c, 0 < kv.2) : ∀ kv ∈ langStep c r, 0 < kv.2 := by
  cases hl : r.language with
  | none => simpa [langStep, hl] using hc
  | some str =>
    by_cases hs : str ≠ ""
    · simp only [langStep, hl, if_pos hs]
      exact counterIncr_pos c str hc
    · simp only [langStep, hl, if_neg hs]
      exact hc

lemma langFold_pos : ∀ (repos : List RawRepo) (c : List (String × Nat)),
    (∀ kv ∈ c, 0 < kv.2) → ∀ kv ∈ repos.foldl langStep c, 0 < kv.2 := by
  intro repos
  induction repos with
  | nil => intro c hc; simpa using hc
  | cons r rest ih =>
    intro c hc
    simp only [List.foldl_cons]
    exact ih _ (langStep_pos c r hc)

/-- C2: window filter correctness — on a fetched event list whose timestamps
all parse, the filter returns exactly the events with `created_at >= cutoff`:
every element of the result is in-window, no in-window event is excluded,
and relative order is preserved (the result is a sublist). -/
theorem C2_window_filter_correct (evs : List RawEvent) (cutoff : Nat)
    (h : ∀ e ∈ evs, (eventTime e).isSome) :
    ∃ res, filter_events evs cutoff = .ok res ∧
      (∀ e ∈ res, ∃ t, eventTime e = some t ∧ cutoff ≤ t) ∧
      (∀ e ∈ evs, ∀ t, eventTime e = some t → cutoff ≤ t → e ∈ res) ∧
      res.Sublist evs := by
  refine ⟨evs.filter (inWindow cutoff), filter_events_ok evs cutoff h, ?_, ?_,
    List.filter_sublist evs⟩
  · intro e he
    have hw := List.of_mem_filter he
    cases hti : eventTime e with
    | none => rw [inWindow, hti] at hw; simp at hw
    | some t =>
      refine ⟨t, rfl, ?_⟩
      rw [inWindow, hti] at hw
      simpa using hw
  · intro e he t hti hct
    refine List.mem_filter.mpr ⟨he, ?_⟩
    rw [inWindow, hti]
    simpa using hct

/-- Witness for C2 at a concrete two-event list and cutoff. -/
theorem C2_window_filter_correct_witness :
    (∀ e ∈ [evWitPush, evWitIssue], (eventTime e).isSome) ∧
    ∃ res, filter_events [evWitPush, evWitIssue] 20240102000000 = .ok res ∧
      (∀ e ∈ res, ∃ t, eventTime e = some t ∧ 20240102000000 ≤ t) ∧
      (∀ e ∈ [evWitPush, evWitIssue], ∀ t, eventTime e = some t →
        20240102000000 ≤ t → e ∈ res) ∧
      res.Sublist [evWitPush, evWitIssue] :=
  ⟨by decide, C2_window_filter_correct [evWitPush, evWitIssue] 20240102000000 (by decide)⟩

/-- C3: PR counter logic — `prs_opened` counts exactly the pull-request
events with action `opened`, `prs_merged` counts exactly the closed
pull-request events whose nested `merged` flag is true, and a
closed-but-unmerged pull-request event contributes to neither count. -/
theorem C3_pr_counter_logic (evs : List RawEvent) (s : Stats)
    (h : analyze_events evs = .ok s) :
    s.prs_opened = evs.countP prOpenedEv ∧
    s.prs_merged = evs.countP prMergedEv ∧
    (∀ e ∈ evs, prClosedUnmergedEv e = true →
      prOpenedEv e = false ∧ prMergedEv e = false) := by
  obtain ⟨-, -, h3, h4, -, -, -⟩ := analyzeLoop_fields evs _ s h
  have e3 : s.prs_opened = 0 + evs.countP prOpenedEv := h3
  have e4 : s.prs_merged = 0 + evs.countP prMergedEv := h4
  refine ⟨by omega, by omega, ?_⟩
  intro e _ hcu
  obtain ⟨ty, rp, ca, pl⟩ := e
  cases pl with
  | none => simp [prClosedUnmergedEv] at hcu
  | some p =>
    simp only [prClosedUnmergedEv, Bool.and_eq_true, decide_eq_true_eq,
      Bool.not_eq_true'] at hcu
    obtain ⟨hty, hcl, hm⟩ := hcu
    constructor
    · simp [prOpenedEv, hcl]
    · simp [prMergedEv, hm]

/-- Witness for C3 on a concrete opened / closed-merged / closed-unmerged
event list: one PR counted opened, one counted merged. -/
theorem C3_pr_counter_logic_witness :
    analyze_events [evWitPrOpened, evWitPrMerged, evWitPrUnmerged] =
      .ok ⟨3, 0, 1, 1, 0, [("alice/app", 1), ("alice/lib", 2)],
        [("2024-01-02", 1), ("2024-01-03", 2)]⟩ ∧
    (1 : Nat) = [evWitPrOpened, evWitPrMerged, evWitPrUnmerged].countP prOpenedEv ∧
    (1 : Nat) = [evWitPrOpened, evWitPrMerged, evWitPrUnmerged].countP prMergedEv ∧
    prClosedUnmergedEv evWitPrUnmerged = true ∧
    prOpenedEv evWitPrUnmerged = false ∧ prMergedEv evWitPrUnmerged = false := by
  have h := C3_pr_counter_logic [evWitPrOpened, evWitPrMerged, evWitPrUnmerged]
    ⟨3, 0, 1, 1, 0, [("alice/app", 1), ("alice/lib", 2)],
      [("2024-01-02", 1), ("2024-01-03", 2)]⟩ rfl
  obtain ⟨h1, h2, h3⟩ := h
  exact ⟨rfl, h1, h2, by decide,
    h3 evWitPrUnmerged (by decide) (by decide)⟩

/-- C6: stats invariants — `total_events` equals the length of the event
list (not recomputed from histograms), and every count in the repo, day and
language histograms is strictly positive. -/
theorem C6_stats_invariants (evs : List RawEvent) (s : Stats)
    (repos : List RawRepo) (h : analyze_events evs = .ok s) :
    s.total_events = evs.length ∧
    (∀ kv ∈ s.repo_counter, 0 < kv.2) ∧
    (∀ kv ∈ s.day_counter, 0 < kv.2) ∧
    (∀ kv ∈ analyze_languages repos, 0 < kv.2) := by
  obtain ⟨h1, -, -, -, -, -, -⟩ := analyzeLoop_fields evs _ s h
  obtain ⟨hr, hd⟩ := analyzeLoop_pos evs _ s (by simp) (by simp) h
  exact ⟨h1, hr, hd, langFold_pos repos [] (by simp)⟩

/-- Witness for C6 on a concrete two-event list and one-repo list. -/
theorem C6_stats_invariants_witness :
    analyze_events [evWitPush, evWitIssue] =
      .ok ⟨2, 2, 0, 0, 1, [("alice/app", 2)],
        [("2024-01-01", 1), ("2024-01-03", 1)]⟩ ∧
    (2 : Nat) = [evWitPush, evWitIssue].length ∧
    (∀ kv ∈ [("alice/app", 2)], 0 < Prod.snd kv) ∧
    (∀ kv ∈ analyze_languages [(⟨some "Python"⟩ : RawRepo)], 0 < kv.2) := by
  have h := C6_stats_invariants [evWitPush, evWitIssue]
    ⟨2, 2, 0, 0, 1, [("alice/app", 2)], [("2024-01-01", 1), ("2024-01-03", 1)]⟩
    [(⟨some "Python"⟩ : RawRepo)] rfl
  exact ⟨rfl, h.1, h.2.1, h.2.2.2⟩

/-- C10: the aggregator raises `KeyError` whenever any event lacks one of
the structural fields `type`, `repo.name`, `created_at`; it never raises for
lists whose events all carry the structural fields and carry a payload
whenever their kind's branch dereferences one — in particular unknown event
kinds and missing payload fields (`size`, `action`, `pull_request`,
`merged`) never raise. -/
theorem C10_aggregator_structural_totality :
    (∀ (evs : List RawEvent) (e : RawEvent), e ∈ evs → ¬ structuralOK e →
      analyze_events evs = .error .keyError) ∧
    (∀ evs : List RawEvent,
      (∀ e ∈ evs, structuralOK e ∧ (knownType e → e.payload ≠ none)) →
      ∃ s, analyze_events evs = .ok s) := by
  constructor
  · intro evs e he hbad
    cases h : analyze_events evs with
    | ok s =>
      have htot := analyzeLoop_ok_then evs _ s h e he
      exact absurd htot.1 hbad
    | error k =>
      rw [analyzeLoop_err evs _ k h]
  · intro evs h
    exact analyzeLoop_ok_total evs _ (fun e he => h e he)

/-- Witness for C10: an event missing `type` makes the aggregator raise
`KeyError`; an unknown-kind event with no payload at all aggregates fine. -/
theorem C10_aggregator_structural_totality_witness :
    analyze_events [evNoType] = .error .keyError ∧
    ∃ s, analyze_events [evDayA] = .ok s := by
  obtain ⟨h1, h2⟩ := C10_aggregator_structural_totality
  refine ⟨h1 [evNoType] evNoType (List.mem_singleton.mpr rfl) ?_, h2 [evDayA] ?_⟩
  · intro hok
    exact hok.1 rfl
  · intro e he
    rw [List.mem_singleton] at he
    subst he
    exact ⟨⟨Option.some_ne_none _, ⟨⟨some "alice/app"⟩, rfl, Option.some_ne_none _⟩,
      Option.some_ne_none _⟩, fun hk => absurd hk (by simp [knownType, evDayA])⟩

/-- C4 (amended): aggregation is order-independent — any permutation of the
event list yields identical counters and identical repo and day histograms
(as key-to-count mappings). The busiest-day selection is excluded: it is
deterministic only given the insertion-ordered histogram, not given the
counts (see the counterexample). -/
theorem C4_aggregation_order_independent (evs evs' : List RawEvent) (s : Stats)
    (hperm : evs.Perm evs') (h : analyze_events evs = .ok s) :
    ∃ s', analyze_events evs' = .ok s' ∧
      s'.total_events = s.total_events ∧ s'.commits = s.commits ∧
      s'.prs_opened = s.prs_opened ∧ s'.prs_merged = s.prs_merged ∧
      s'.issues = s.issues ∧
      (∀ k, counterGet s'.repo_counter k = counterGet s.repo_counter k) ∧
      (∀ k, counterGet s'.day_counter k = counterGet s.day_counter k) := by
  have htot : ∀ e ∈ evs', stepTotal e := fun e he =>
    analyzeLoop_ok_then evs _ s h e (hperm.mem_iff.mpr he)
  obtain ⟨s', hs'⟩ := analyzeLoop_ok_total evs'
    { total_events := evs'.length, commits := 0, prs_opened := 0,
      prs_merged := 0, issues := 0, repo_counter := [], day_counter := [] } htot
  obtain ⟨h1, h2, h3, h4, h5, h6, h7⟩ := analyzeLoop_fields evs _ s h
  obtain ⟨h1', h2', h3', h4', h5', h6', h7'⟩ := analyzeLoop_fields evs' _ s' hs'
  have e1 : s.total_events = evs.length := h1
  have e1' : s'.total_events = evs'.length := h1'
  have e2 : s.commits = 0 + (evs.map pushSize).sum := h2
  have e2' : s'.commits = 0 + (evs'.map pushSize).sum := h2'
  have e3 : s.prs_opened = 0 + evs.countP prOpenedEv := h3
  have e3' : s'.prs_opened = 0 + evs'.countP prOpenedEv := h3'
  have e4 : s.prs_merged = 0 + evs.countP prMergedEv := h4
  have e4' : s'.prs_merged = 0 + evs'.countP prMergedEv := h4'
  have e5 : s.issues = 0 + evs.countP issueOpenedEv := h5
  have e5' : s'.issues = 0 + evs'.countP issueOpenedEv := h5'
  have hlen : evs.length = evs'.length := hperm.length_eq
  have hsum : (evs.map pushSize).sum = (evs'.map pushSize).sum :=
    (hperm.map pushSize).sum_eq
  have hcp1 : evs.countP prOpenedEv = evs'.countP prOpenedEv :=
    hperm.countP_eq prOpenedEv
  have hcp2 : evs.countP prMergedEv = evs'.countP prMergedEv :=
    hperm.countP_eq prMergedEv
  have hcp3 : evs.countP issueOpenedEv = evs'.countP issueOpenedEv :=
    hperm.countP_eq issueOpenedEv
  refine ⟨s', hs', by omega, by omega, by omega, by omega, by omega, ?_, ?_⟩
  · intro k
    have a1 : counterGet s.repo_counter k = 0 + evs.countP (repoKeyEv k) := h6 k
    have a2 : counterGet s'.repo_counter k = 0 + evs'.countP (repoKeyEv k) := h6' k
    have hc : evs.countP (repoKeyEv k) = evs'.countP (repoKeyEv k) :=
      hperm.countP_eq (repoKeyEv k)
    omega
  · intro k
    have a1 : counterGet s.day_counter k = 0 + evs.countP (dayKeyEv k) := h7 k
    have a2 : counterGet s'.day_counter k = 0 + evs'.countP (dayKeyEv k) := h7' k
    have hc : evs.countP (dayKeyEv k) = evs'.countP (dayKeyEv k) :=
      hperm.countP_eq (dayKeyEv k)
    omega

/-- Counterexample for C4 as stated: two permutations of the same two-event
list produce day histograms with identical counts on both days, yet
`most_common(1)` (the busiest-day selection) reports a different day for
each order — the tie is broken by insertion order, not deterministically
from the counts. -/
theorem C4_busiest_day_not_permutation_invariant :
    [evDayA, evDayB].Perm [evDayB, evDayA] ∧
    (analyze_events [evDayA, evDayB]).map
      (fun s => counterGet s.day_counter "2024-01-01") = .ok 1 ∧
    (analyze_events [evDayA, evDayB]).map
      (fun s => counterGet s.day_counter "2024-01-02") = .ok 1 ∧
    (analyze_events [evDayB, evDayA]).map
      (fun s => counterGet s.day_counter "2024-01-01") = .ok 1 ∧
    (analyze_events [evDayB, evDayA]).map
      (fun s => counterGet s.day_counter "2024-01-02") = .ok 1 ∧
    (analyze_events [evDayA, evDayB]).map
      (fun s => most_common1 s.day_counter) = .ok (some ("2024-01-01", 1)) ∧
    (analyze_events [evDayB, evDayA]).map
      (fun s => most_common1 s.day_counter) = .ok (some ("2024-01-02", 1)) ∧
    ("2024-01-01" : String) ≠ "2024-01-02" :=
  ⟨List.Perm.swap evDayB evDayA [], rfl, rfl, rfl, rfl, rfl, rfl, by decide⟩

/-- Witness for the amended C4 on a concrete swapped pair. -/
theorem C4_aggregation_order_independent_witness :
    [evDayA, evDayB].Perm [evDayB, evDayA] ∧
    ∃ s', analyze_events [evDayB, evDayA] = .ok s' ∧ s'.total_events = 2 := by
  have happ := C4_aggregation_order_independent [evDayA, evDayB] [evDayB, evDayA]
    ⟨2, 0, 0, 0, 0, [("alice/app", 2)], [("2024-01-01", 1), ("2024-01-02", 1)]⟩
    (List.Perm.swap evDayB evDayA []) rfl
  obtain ⟨s', hs', htot, -⟩ := happ
  exact ⟨List.Perm.swap evDayB evDayA [], s', hs', htot⟩

/-- C5: repository pagination termination — if every page before `k` is a
full (≥ 100 item) list and page `k` is short, empty or not a list, then for
every sufficient fuel the repos loop halts normally after exactly `k`
requests, treating the short page as end-of-data rather than an error. -/
theorem C5_repo_pagination_terminates (feed : Nat → Response RawRepo) (k : Nat)
    (hk : 1 ≤ k)
    (hfull : ∀ p, 1 ≤ p → p < k → ∃ items,
      github_request (feed p) = .ok (.arr items) ∧ 100 ≤ items.length)
    (hend : ∃ body, github_request (feed k) = .ok body ∧ pageShort body) :
    ∃ acc, ∀ fuel, k ≤ fuel →
      fetch_repos_loop feed fuel 1 [] 0 = some (.ok acc, k) := by
  obtain ⟨n, rfl⟩ : ∃ n, k = n + 1 := ⟨k - 1, by omega⟩
  obtain ⟨acc, hacc⟩ := fetch_repos_loop_run n feed 1 [] 0
    (fun i hi => hfull (1 + i) (by omega) (by omega))
    (by rwa [show (1 : Nat) + n = n + 1 by omega])
  rw [Nat.zero_add] at hacc
  exact ⟨acc, fun fuel hf => fetch_repos_loop_mono (n + 1) feed 1 [] 0 _ hacc fuel hf⟩

/-- Witness for C5 on a feed of one full page then one short page: exactly
two requests are issued. -/
theorem C5_repo_pagination_terminates_witness :
    ∃ acc, fetch_repos_loop feedReposWit 2 1 [] 0 = some (.ok acc, 2) := by
  obtain ⟨acc, h⟩ := C5_repo_pagination_terminates feedReposWit 2 (by omega)
    (fun p h1 h2 => by
      have hp : p = 1 := by omega
      subst hp
      exact ⟨List.replicate 100 ⟨some "Python"⟩, rfl, by simp⟩)
    ⟨.arr (List.replicate 40 ⟨some "Python"⟩), rfl, by simp [pageShort]⟩
  exact ⟨acc, h 2 (by omega)⟩

/-- Counterexample for C7 as stated: a run with a 91-day window and zero
in-window events renders the no-activity notice but not the 90-day caveat —
the zero-event branch returns before the caveat is printed. -/
theorem C7_caveat_missing_on_empty_run :
    90 < 91 ∧
    (⟨0, 0, 0, 0, 0, [], []⟩ : Stats).total_events = 0 ∧
    RenderItem.emptyHistory ∈ render_dashboard 91 ⟨0, 0, 0, 0, 0, [], []⟩ [] ∧
    RenderItem.caveat90 ∉ render_dashboard 91 ⟨0, 0, 0, 0, 0, [], []⟩ [] := by
  refine ⟨by omega, rfl, ?_, ?_⟩
  · simp [render_dashboard]
  · simp [render_dashboard]

/-- C7 (amended): the 90-day caveat is rendered for every run whose window
exceeds 90 days and whose in-window event count is nonzero; zero-event runs
return early after the no-activity notice and omit the caveat. -/
theorem C7_caveat_when_events_nonzero (days : Nat) (s : Stats)
    (lang : List (String × Nat)) (hdays : 90 < days)
    (hne : s.total_events ≠ 0) :
    RenderItem.caveat90 ∈ render_dashboard days s lang := by
  unfold render_dashboard
  rw [if_neg hne]
  simp [hdays]

/-- Witness for the amended C7 at a concrete nonzero-event run. -/
theorem C7_caveat_when_events_nonzero_witness :
    RenderItem.caveat90 ∈
      render_dashboard 91 ⟨1, 0, 0, 0, 0, [("alice/app", 1)], [("2024-01-01", 1)]⟩ [] :=
  C7_caveat_when_events_nonzero 91
    ⟨1, 0, 0, 0, 0, [("alice/app", 1)], [("2024-01-01", 1)]⟩ [] (by omega) (by decide)

/-- C8: fatal error handling — `github_request` aborts the run exactly on
404, 401/403, 5xx or transport failure; the abort path exits with a nonzero
status; a fatal page response makes either pagination loop return the fatal
outcome (no partial result) after that request; and empty or non-list page
bodies always end pagination normally, never as errors. -/
theorem C8_fatal_error_handling :
    (∀ resp : Response RawEvent,
      (∃ k, github_request resp = .error k) ↔ isFatalResp resp) ∧
    (∀ k : FatalKind, errorExitStatus k ≠ 0) ∧
    (∀ (feed : Nat → Response RawEvent) (cutoff fuel page reqs : Nat)
        (acc : List RawEvent) (k : FatalKind),
      github_request (feed page) = .error k →
      fetch_events_loop feed cutoff (fuel + 1) page acc reqs =
        some (.fatal k, reqs + 1)) ∧
    (∀ (feed : Nat → Response RawRepo) (fuel page reqs : Nat)
        (acc : List RawRepo) (k : FatalKind),
      github_request (feed page) = .error k →
      fetch_repos_loop feed (fuel + 1) page acc reqs = some (.fatal k, reqs + 1)) ∧
    (∀ (feed : Nat → Response RawEvent) (cutoff fuel page reqs : Nat)
        (acc : List RawEvent) (b : Bool),
      github_request (feed page) = .ok (.other b) →
      fetch_events_loop feed cutoff (fuel + 1) page acc reqs =
        some (.ok acc, reqs + 1)) ∧
    (∀ (feed : Nat → Response RawEvent) (cutoff fuel page reqs : Nat)
        (acc : List RawEvent),
      github_request (feed page) = .ok (.arr []) →
      fetch_events_loop feed cutoff (fuel + 1) page acc reqs =
        some (.ok acc, reqs + 1)) ∧
    (∀ (feed : Nat → Response RawRepo) (fuel page reqs : Nat)
        (acc : List RawRepo) (b : Bool),
      github_request (feed page) = .ok (.other b) →
      fetch_repos_loop feed (fuel + 1) page acc reqs = some (.ok acc, reqs + 1)) ∧
    (∀ (feed : Nat → Response RawRepo) (fuel page reqs : Nat)
        (acc : List RawRepo),
      github_request (feed page) = .ok (.arr []) →
      fetch_repos_loop feed (fuel + 1) page acc reqs = some (.ok acc, reqs + 1)) := by
  refine ⟨?_, fun k => by simp [errorExitStatus],
    fun feed cutoff fuel page reqs acc k hg =>
      fetch_events_loop_fatal feed cutoff fuel page reqs acc k hg,
    fun feed fuel page reqs acc k hg =>
      fetch_repos_loop_fatal feed fuel page reqs acc k hg,
    fun feed cutoff fuel page reqs acc b hg =>
      fetch_events_loop_endOther feed cutoff fuel page reqs acc b hg,
    fun feed cutoff fuel page reqs acc hg =>
      fetch_events_loop_endNil feed cutoff fuel page reqs acc hg,
    fun feed fuel page reqs acc b hg =>
      fetch_repos_loop_endOther feed fuel page reqs acc b hg,
    fun feed fuel page reqs acc hg =>
      fetch_repos_loop_endNil feed fuel page reqs acc hg⟩
  intro resp
  constructor
  · rintro ⟨k, hk⟩
    cases resp with
    | transportFail => trivial
    | status code body =>
      simp only [github_request] at hk
      by_cases h404 : code = 404
      · exact Or.inl h404
      · rw [if_neg h404] at hk
        by_cases hauth : code = 401 ∨ code = 403
        · rcases hauth with h | h
          · exact Or.inr (Or.inl h)
          · exact Or.inr (Or.inr (Or.inl h))
        · rw [if_neg hauth] at hk
          by_cases h5 : 500 ≤ code
          · exact Or.inr (Or.inr (Or.inr h5))
          · rw [if_neg h5] at hk
            exact Except.noConfusion hk
  · intro hf
    cases resp with
    | transportFail => exact ⟨.network, rfl⟩
    | status code body =>
      rcases hf with h | h | h | h
      · refine ⟨.notFound, ?_⟩
        simp only [github_request]
        rw [if_pos h]
      · refine ⟨.auth, ?_⟩
        simp only [github_request]
        rw [if_neg (by omega), if_pos (Or.inl h)]
      · refine ⟨.auth, ?_⟩
        simp only [github_request]
        rw [if_neg (by omega), if_pos (Or.inr h)]
      · refine ⟨.server, ?_⟩
        simp only [github_request]
        rw [if_neg (by omega), if_neg (by rintro (h' | h') <;> omega), if_pos h]

/-- Witness for C8 at concrete responses: a 404 is fatal, the exit status is
nonzero, transport failures abort both loops, and empty or non-list bodies
end both loops normally. -/
theorem C8_fatal_error_handling_witness :
    ((∃ k, github_request
        (Response.status 404 (PageBody.other false) : Response RawEvent) =
          .error k) ↔
      isFatalResp
        (Response.status 404 (PageBody.other false) : Response RawEvent)) ∧
    errorExitStatus FatalKind.notFound ≠ 0 ∧
    fetch_events_loop (fun _ => Response.transportFail) 0 (0 + 1) 1 [] 0 =
      some (.fatal .network, 0 + 1) ∧
    fetch_repos_loop (fun _ => Response.transportFail) (0 + 1) 1 [] 0 =
      some (.fatal .network, 0 + 1) ∧
    fetch_events_loop (fun _ => Response.status 200 (PageBody.other false)) 0
      (0 + 1) 1 [] 0 = some (.ok [], 0 + 1) ∧
    fetch_events_loop (fun _ => Response.status 200 (PageBody.arr [])) 0
      (0 + 1) 1 [] 0 = some (.ok [], 0 + 1) ∧
    fetch_repos_loop (fun _ => Response.status 200 (PageBody.other false))
      (0 + 1) 1 [] 0 = some (.ok [], 0 + 1) ∧
    fetch_repos_loop (fun _ => Response.status 200 (PageBody.arr []))
      (0 + 1) 1 [] 0 = some (.ok [], 0 + 1) := by
  obtain ⟨h1, h2, h3, h4, h5, h6, h7, h8⟩ := C8_fatal_error_handling
  exact ⟨h1 _, h2 _, h3 _ 0 0 1 0 [] .network rfl, h4 _ 0 1 0 [] .network rfl,
    h5 _ 0 0 1 0 [] false rfl, h6 _ 0 0 1 0 [] rfl,
    h7 _ 0 1 0 [] false rfl, h8 _ 0 1 0 [] rfl⟩

/-- C9: the event fetcher inspects the last element of every non-empty list
page before deciding whether to stop; a missing `created_at` on that element
raises `KeyError` and a malformed timestamp raises `ValueError` — neither is
treated as end-of-data (only empty or non-list pages are). -/
theorem C9_last_item_parse_exceptions :
    (∀ (feed : Nat → Response RawEvent) (cutoff fuel page reqs : Nat)
        (acc items : List RawEvent) (le : RawEvent),
      github_request (feed page) = .ok (.arr items) → items ≠ [] →
      items.getLast? = some le → le.created_at = none →
      fetch_events_loop feed cutoff (fuel + 1) page acc reqs =
        some (.exn .keyError, reqs + 1)) ∧
    (∀ (feed : Nat → Response RawEvent) (cutoff fuel page reqs : Nat)
        (acc items : List RawEvent) (le : RawEvent) (str : String),
      github_request (feed page) = .ok (.arr items) → items ≠ [] →
      items.getLast? = some le → le.created_at = some str →
      parseTimestamp str = none →
      fetch_events_loop feed cutoff (fuel + 1) page acc reqs =
        some (.exn .valueError, reqs + 1)) :=
  ⟨fun feed cutoff fuel page reqs acc items le hg hne hlast hca =>
    fetch_events_loop_keyError feed cutoff fuel page reqs acc items le hg hne hlast hca,
  fun feed cutoff fuel page reqs acc items le str hg hne hlast hca hts =>
    fetch_events_loop_valueError feed cutoff fuel page reqs acc items le str
      hg hne hlast hca hts⟩

/-- Witness for C9 at concrete pages whose single event lacks `created_at`
or carries a malformed timestamp. -/
theorem C9_last_item_parse_exceptions_witness :
    fetch_events_loop (fun _ => .status 200 (.arr [evNoDate])) 0 (0 + 1) 1 [] 0 =
      some (.exn .keyError, 0 + 1) ∧
    fetch_events_loop (fun _ => .status 200 (.arr [evBadDate])) 0 (0 + 1) 1 [] 0 =
      some (.exn .valueError, 0 + 1) := by
  obtain ⟨h1, h2⟩ := C9_last_item_parse_exceptions
  exact ⟨h1 _ 0 0 1 0 [] [evNoDate] evNoDate rfl (List.cons_ne_nil _ _) rfl rfl,
    h2 _ 0 0 1 0 [] [evBadDate] evBadDate "not-a-date" rfl (List.cons_ne_nil _ _)
      rfl rfl rfl⟩

set_option maxRecDepth 10000 in
/-- C1: event pagination early exit — after appending a non-empty list page
whose last timestamp parses to `t`, the loop stops iff `t < cutoff` or the
page has fewer than 100 items (the page is appended in full either way,
before the decision); empty or non-list pages stop the loop; and on the
synthetic feed of pages sized [100, 100, 100, 40] with the cutoff inside
page 3, exactly 3 page requests are issued, with all 300 items of the first
three pages accumulated. -/
theorem C1_event_pagination_early_exit :
    (∀ (feed : Nat → Response RawEvent) (cutoff fuel page reqs : Nat)
        (acc items : List RawEvent) (le : RawEvent) (str : String) (t : Nat),
      github_request (feed page) = .ok (.arr items) → items ≠ [] →
      items.getLast? = some le → le.created_at = some str →
      parseTimestamp str = some t →
      fetch_events_loop feed cutoff (fuel + 1) page acc reqs =
        (if t < cutoff ∨ items.length < 100
         then some (.ok (acc ++ items), reqs + 1)
         else fetch_events_loop feed cutoff fuel (page + 1) (acc ++ items)
           (reqs + 1))) ∧
    (∀ (feed : Nat → Response RawEvent) (cutoff fuel page reqs : Nat)
        (acc : List RawEvent) (b : Bool),
      github_request (feed page) = .ok (.other b) →
      fetch_events_loop feed cutoff (fuel + 1) page acc reqs =
        some (.ok acc, reqs + 1)) ∧
    (∀ (feed : Nat → Response RawEvent) (cutoff fuel page reqs : Nat)
        (acc : List RawEvent),
      github_request (feed page) = .ok (.arr []) →
      fetch_events_loop feed cutoff (fuel + 1) page acc reqs =
        some (.ok acc, reqs + 1)) ∧
    (∃ acc, fetch_events_loop feedSynth cutoffSynth 10 1 [] 0 =
      some (.ok acc, 3) ∧ acc.length = 300) :=
  ⟨fun feed cutoff fuel page reqs acc items le str t hg hne hlast hca hts =>
    fetch_events_loop_step feed cutoff fuel page reqs acc items le str t
      hg hne hlast hca hts,
  fun feed cutoff fuel page reqs acc b hg =>
    fetch_events_loop_endOther feed cutoff fuel page reqs acc b hg,
  fun feed cutoff fuel page reqs acc hg =>
    fetch_events_loop_endNil feed cutoff fuel page reqs acc hg,
  ⟨_, rfl, rfl⟩⟩

/-- Witness for C1 on a concrete one-page feed (short in-window page: the
loop appends it in full and stops) and on empty and non-list pages. -/
theorem C1_event_pagination_early_exit_witness :
    (fetch_events_loop (fun _ => .status 200 (.arr [evDayA])) 0 (0 + 1) 1 [] 0 =
      (if 20240101100000 < 0 ∨ [evDayA].length < 100
       then some (.ok ([] ++ [evDayA]), 0 + 1)
       else fetch_events_loop (fun _ => .status 200 (.arr [evDayA])) 0 0 (1 + 1)
         ([] ++ [evDayA]) (0 + 1))) ∧
    fetch_events_loop (fun _ => (.status 200 (.other true) : Response RawEvent))
      0 (0 + 1) 1 [] 0 = some (.ok [], 0 + 1) ∧
    fetch_events_loop (fun _ => (.status 200 (.arr []) : Response RawEvent))
      0 (0 + 1) 1 [] 0 = some (.ok [], 0 + 1) := by
  obtain ⟨h1, h2, h3, -⟩ := C1_event_pagination_early_exit
  exact ⟨h1 _ 0 0 1 0 [] [evDayA] evDayA "2024-01-01T10:00:00Z" 20240101100000
      rfl (List.cons_ne_nil _ _) rfl rfl rfl,
    h2 _ 0 0 1 0 [] true rfl, h3 _ 0 0 1 0 [] rfl⟩
